import Mathlib

/-!
Verification of the Lumos resumable OCR/translation pipeline.

This file gives a shallow embedding of the core logic of the repository
(the project data model and status machine in `src/projects/manager.py`,
the per-page checkpoint loops in `src/ui/app.py`, the page joining in
`src/ocr/engine.py`, and the translation backends in `src/translation/`)
and proves or refutes the frozen claims about it.

Modelling conventions:
- Python strings are modelled as Lean `String`/`List Char`, restricted to
  the behaviour on the character sets actually exercised (ASCII whitespace
  for `str.strip` and the regex class backslash-s).
- The filesystem of one project folder is a `Store` record; a per-page
  artifact file `page_NNNN.txt` is an entry of a `List (Option String)`
  indexed by page number (a missing file is `none`).
- Wall-clock effects (timestamps, sleeps) are not modelled as state; retry
  sleep durations are computed as data so the backoff policy can be stated.
- Fallible Python code is modelled with `Option`/`Except`.
-/

namespace Lumos

/-! ## Python string primitives -/

/-- Python whitespace characters stripped by `str.strip()` and matched by the
regex class backslash-s (ASCII range). -/
def pyWs (c : Char) : Bool :=
  c == ' ' || c == '\t' || c == '\n' || c == '\r' || c == '\x0b' || c == '\x0c'

/-- Python `str.strip()` on a character list: drop whitespace from both ends. -/
def stripL (l : List Char) : List Char :=
  ((l.dropWhile pyWs).reverse.dropWhile pyWs).reverse

/-- Python `str.strip()`. -/
def pyStripStr (s : String) : String :=
  ⟨stripL s.data⟩

/-- Python `sep.join(parts)`. -/
def joinSep (sep : String) : List String → String
  | [] => ""
  | [s] => s
  | s :: rest => s ++ sep ++ joinSep sep rest

/-- Whether `pat` occurs as a contiguous substring of `cs`. -/
def hasSub (pat : List Char) : List Char → Bool
  | [] => pat.isPrefixOf ([] : List Char)
  | c :: rest => pat.isPrefixOf (c :: rest) || hasSub pat rest

/-! ## Status state machine (`src/projects/manager.py`, `ProjectStatus`) -/

/-- The eight project statuses of `ProjectStatus` in `src/projects/manager.py`. -/
inductive ProjectStatus
  | pending
  | ocr_in_progress
  | ocr_paused
  | ocr_done
  | translating
  | translation_paused
  | done
  | error
deriving DecidableEq

/-- The serialized string value of each status (the Python enum value). -/
def statusValue : ProjectStatus → String
  | .pending => "pending"
  | .ocr_in_progress => "ocr_in_progress"
  | .ocr_paused => "ocr_paused"
  | .ocr_done => "ocr_done"
  | .translating => "translating"
  | .translation_paused => "translation_paused"
  | .done => "done"
  | .error => "error"

/-- `ProjectStatus(value)` in Python: look a status up by its string value,
`none` when the string is not a valid value (Python raises `ValueError`). -/
def statusOfValue (s : String) : Option ProjectStatus :=
  if s = "pending" then some .pending
  else if s = "ocr_in_progress" then some .ocr_in_progress
  else if s = "ocr_paused" then some .ocr_paused
  else if s = "ocr_done" then some .ocr_done
  else if s = "translating" then some .translating
  else if s = "translation_paused" then some .translation_paused
  else if s = "done" then some .done
  else if s = "error" then some .error
  else none

/-- `ProjectStatus.can_pause`. -/
def can_pause : ProjectStatus → Bool
  | .ocr_in_progress => true
  | .translating => true
  | _ => false

/-- `ProjectStatus.can_resume`. -/
def can_resume : ProjectStatus → Bool
  | .ocr_paused => true
  | .translation_paused => true
  | _ => false

/-- `ProjectStatus.can_start`. -/
def can_start : ProjectStatus → Bool
  | .pending => true
  | .ocr_done => true
  | _ => false

/-! ## Project record (`src/projects/manager.py`, `Project`) -/

/-- The serialized fields of the `Project` dataclass (everything `save`
writes to `project.json`; the non-serialized `_output_dir` is omitted). -/
structure Project where
  name : String
  source_pdf : String
  status : ProjectStatus
  created_at : String
  updated_at : String
  ocr_total_pages : Nat
  ocr_completed_pages : Nat
  ocr_language : String
  translation_total_pages : Nat
  translation_completed_pages : Nat
  translation_target_language : String
  translation_backend : String
  translation_lmstudio_url : String
  translation_lmstudio_model : String
  translation_opencode_model : String
  error_message : String
deriving DecidableEq

/-- A fresh project with the dataclass field defaults (timestamps are not
modelled as wall clock; they are plain string fields here). -/
def mkProject (name source_pdf : String) : Project :=
  { name := name
    source_pdf := source_pdf
    status := .pending
    created_at := ""
    updated_at := ""
    ocr_total_pages := 0
    ocr_completed_pages := 0
    ocr_language := "por+eng"
    translation_total_pages := 0
    translation_completed_pages := 0
    translation_target_language := "Portuguese"
    translation_backend := "lmstudio"
    translation_lmstudio_url := "http://localhost:1234/v1"
    translation_lmstudio_model := "local-model"
    translation_opencode_model := "github-copilot/gpt-5-mini"
    error_message := "" }

/-- The JSON object written by `Project.save`: `asdict(self)` with the status
replaced by its string value and `_output_dir` popped.  JSON keeps strings
and (non-negative) integers exact, so the object is modelled as a record. -/
structure ProjectMeta where
  name : String
  source_pdf : String
  status : String
  created_at : String
  updated_at : String
  ocr_total_pages : Nat
  ocr_completed_pages : Nat
  ocr_language : String
  translation_total_pages : Nat
  translation_completed_pages : Nat
  translation_target_language : String
  translation_backend : String
  translation_lmstudio_url : String
  translation_lmstudio_model : String
  translation_opencode_model : String
  error_message : String
deriving DecidableEq

/-- `Project.save`: the metadata record persisted to `project.json`. -/
def saveMeta (p : Project) : ProjectMeta :=
  { name := p.name
    source_pdf := p.source_pdf
    status := statusValue p.status
    created_at := p.created_at
    updated_at := p.updated_at
    ocr_total_pages := p.ocr_total_pages
    ocr_completed_pages := p.ocr_completed_pages
    ocr_language := p.ocr_language
    translation_total_pages := p.translation_total_pages
    translation_completed_pages := p.translation_completed_pages
    translation_target_language := p.translation_target_language
    translation_backend := p.translation_backend
    translation_lmstudio_url := p.translation_lmstudio_url
    translation_lmstudio_model := p.translation_lmstudio_model
    translation_opencode_model := p.translation_opencode_model
    error_message := p.error_message }

/-- `Project.load`: rebuild a `Project` from the persisted metadata, turning
the status string back into the enum (`none` when that raises). -/
def loadMeta (d : ProjectMeta) : Option Project :=
  match statusOfValue d.status with
  | none => none
  | some st =>
    some
      { name := d.name
        source_pdf := d.source_pdf
        status := st
        created_at := d.created_at
        updated_at := d.updated_at
        ocr_total_pages := d.ocr_total_pages
        ocr_completed_pages := d.ocr_completed_pages
        ocr_language := d.ocr_language
        translation_total_pages := d.translation_total_pages
        translation_completed_pages := d.translation_completed_pages
        translation_target_language := d.translation_target_language
        translation_backend := d.translation_backend
        translation_lmstudio_url := d.translation_lmstudio_url
        translation_lmstudio_model := d.translation_lmstudio_model
        translation_opencode_model := d.translation_opencode_model
        error_message := d.error_message }

/-! ## Durable storage of one project folder -/

/-- The durable state of one project folder.  Per-page artifact files
`pages/page_NNNN.txt` and `translation_pages/page_NNNN.txt` are modelled as
lists indexed by page number, a missing file being `none`; `ocr.txt` and
`translation.txt` are the two joined artifacts. -/
structure Store where
  ocrPages : List (Option String)
  transPages : List (Option String)
  ocrJoined : Option String
  transJoined : Option String
deriving DecidableEq

/-- Write the artifact file for page index `i` (creating the index slot,
and leaving missing files for any skipped indices). -/
def writeAt : List (Option String) → Nat → String → List (Option String)
  | [], 0, t => [some t]
  | [], n + 1, t => none :: writeAt [] n t
  | _ :: xs, 0, t => some t :: xs
  | x :: xs, n + 1, t => x :: writeAt xs n t

/-- The artifact stored for index `i`, if its file exists. -/
def getArt (l : List (Option String)) (i : Nat) : Option String :=
  l.getD i none

/-- `load_ocr_pages` / `load_translation_pages`: all existing page files in
index order (the 4-digit filenames sort lexicographically by index). -/
def loadPages (l : List (Option String)) : List String :=
  l.filterMap id

/-- Artifacts exist for exactly the indices `[0, e)`, each one loadable:
the contiguity invariant of the spec, stated on the artifact list. -/
def Contig (l : List (Option String)) (e : Nat) : Prop :=
  l.length = e ∧ ∀ o ∈ l, o.isSome = true

/-! ## Page joining (`src/ocr/engine.py`, `OCREngine._join_pages`) -/

/-- The f-string block built for page `i` (1-based) inside `_join_pages`. -/
def pageBlock (i : Nat) (t : String) : String :=
  "--- Page " ++ toString i ++ " ---\n\n" ++ t

/-- The `parts` list of `_join_pages`: one block per page, numbered from
`start` (the loop enumerates from 1). -/
def numberBlocks : Nat → List String → List String
  | _, [] => []
  | i, p :: ps => pageBlock i p :: numberBlocks (i + 1) ps

/-- `OCREngine._join_pages`: empty for no pages, the bare page text for a
single page, otherwise the numbered blocks joined with a blank line. -/
def _join_pages (pages : List String) : String :=
  if pages = [] then ""
  else if pages.length = 1 then pages.headD ""
  else joinSep "\n\n" (numberBlocks 1 pages)

/-- The translation joined artifact (`app.py` line 795): the translated
parts joined with a blank line, with no page markers added. -/
def transJoinPages (parts : List String) : String :=
  joinSep "\n\n" parts

/-! ## Extraction stage loop (`src/ui/app.py`, `OCRApp._run_ocr`) -/

/-- The text checkpointed for page `i` (0-based): the OCR output on
success, the sentinel written by the per-page `except` handler on failure
(`app.py` lines 645-651). -/
def ocrPageText (out : Except String String) (i : Nat) : String :=
  match out with
  | .ok t => t
  | .error _ => "[PAGE " ++ toString (i + 1) ++ " OCR FAILED]\n"

/-- In-memory state of one `_run_ocr` call: the durable store, the project
record, and the accumulated `pages_text` list. -/
structure OcrState where
  store : Store
  project : Project
  pagesText : List String
deriving DecidableEq

/-- One iteration of the `_run_ocr` page loop for page `i` (lines 644-661):
run the page OCR (sentinel on failure), append to `pages_text`, write the
page artifact (`save_ocr_page`), and set `ocr_completed_pages` to
`len(pages_text)` in the persisted project record.  `out` gives each
page's OCR outcome.  Timestamps (`touch`) are not modelled. -/
def ocrStep (out : Nat → Except String String) (st : OcrState) (i : Nat) : OcrState :=
  let text := ocrPageText (out i) i
  let pages := st.pagesText ++ [text]
  { store := { st.store with ocrPages := writeAt st.store.ocrPages i text }
    project := { st.project with ocr_completed_pages := pages.length }
    pagesText := pages }

/-- The state after `j` checkpoints of a run whose loop processes pages
`start, start+1, ...` (pages below `start` are skipped by the resume
check; a pause merely determines how many checkpoints happen, so every
reachable checkpoint state is `ocrCheckpoint out init start j` for some
`j ≥ 1`). -/
def ocrCheckpoint (out : Nat → Except String String) (init : OcrState) (start : Nat) :
    Nat → OcrState
  | 0 => init
  | j + 1 => ocrStep out (ocrCheckpoint out init start j) (start + j)

/-- `_run_ocr` resume offset: the count of existing page artifacts
(`start_page = len(self._project.load_ocr_pages())`, line 597). -/
def ocrResumeStart (s : Store) : Nat :=
  (loadPages s.ocrPages).length

/-! ## Translation backends (`src/translation/lmstudio.py`, `opencode.py`) -/

/-- `TranslationResult` from `src/translation/base.py`. -/
structure TranslationResult where
  translated_text : String
  source_language : String
  target_language : String
  backend_used : String
deriving DecidableEq

/-- `LMStudioBackend.translate` after the chat-completion response arrives:
`content` is the API message content (`none` when the JSON field is null).
The code raises only when the content is `None`; any string, including an
empty one, is stripped and returned as a successful result. -/
def lmstudioTranslate (content : Option String)
    (source_language target_language : String) : Except String TranslationResult :=
  match content with
  | none =>
    Except.error
      "LM Studio returned empty response — check that the model is loaded and responding."
  | some t =>
    Except.ok
      { translated_text := pyStripStr t
        source_language := source_language
        target_language := target_language
        backend_used := "lmstudio" }

/-- `OpenCodeBackend.translate` after the subprocess output has been parsed
and cleaned (`translated_text = _parse_opencode_json(...)`): raise when the
stripped text is empty, otherwise return the stripped text. -/
def opencodeFinish (translated_text : String)
    (source_language target_language : String) : Except String TranslationResult :=
  if pyStripStr translated_text = "" then
    Except.error
      "opencode CLI returned empty translation — check model availability and prompt."
  else
    Except.ok
      { translated_text := pyStripStr translated_text
        source_language := source_language
        target_language := target_language
        backend_used := "opencode" }

/-! ## Translation stage loop (`src/ui/app.py`, `OCRApp._run_translation`) -/

/-- Outcome function for the up-to-3 translation attempts on one page:
`att a` is `some t` when attempt `a` (0-based) succeeds with text `t`,
`none` when it raises. -/
def AttemptOutcomes : Type := Nat → Option String

/-- The retry loop of `_run_translation` (lines 769-783): attempt at most
3 times, stopping at the first success; `page_translation` stays `None`
when all three attempts raise (the loop never re-raises). -/
def retryResult (att : AttemptOutcomes) : Option String :=
  match att 0 with
  | some t => some t
  | none =>
    match att 1 with
    | some t => some t
    | none => att 2

/-- The backoff sleeps performed by the retry loop: after a failed attempt
`a < 2` the code sleeps `2 ^ a` seconds before the next attempt. -/
def retryWaits (att : AttemptOutcomes) : List Nat :=
  match att 0 with
  | some _ => []
  | none =>
    match att 1 with
    | some _ => [2 ^ 0]
    | none => [2 ^ 0, 2 ^ 1]

/-- How many times `backend.translate` is called for the page. -/
def attemptsUsed (att : AttemptOutcomes) : Nat :=
  match att 0 with
  | some _ => 1
  | none =>
    match att 1 with
    | some _ => 2
    | none => 3

/-- The sentinel artifact appended after the 3rd failure (line 791-793):
an explicit failure marker followed by the original untranslated text.
`i1` is the 1-based page number. -/
def transSentinel (i1 : Nat) (pageText : String) : String :=
  "[PAGE " ++ toString i1 ++ " TRANSLATION FAILED — original text below]\n\n" ++ pageText

/-- The part appended for a page (lines 788-793): the translation when
`page_translation` is truthy (a nonempty string), the sentinel otherwise
(covering both `None` after 3 failures and an empty success). -/
def transPageArtifact (result : Option String) (i1 : Nat) (pageText : String) : String :=
  match result with
  | some t => if t = "" then transSentinel i1 pageText else t
  | none => transSentinel i1 pageText

/-- In-memory state of one `_run_translation` call. -/
structure TransState where
  store : Store
  project : Project
  translatedParts : List String
deriving DecidableEq

/-- One iteration of the `_run_translation` page loop at 0-based index
`idx` (lines 753-799): run the retry loop, append the page artifact or
sentinel, regenerate and save the joined output (`save_translation_result`),
and set `translation_completed_pages` to `len(translated_parts)`.  No
per-page file is written.  `att idx` gives the page's attempt outcomes. -/
def transStep (pages : List String) (att : Nat → AttemptOutcomes)
    (st : TransState) (idx : Nat) : TransState :=
  let pageText := pages.getD idx ""
  let artifact := transPageArtifact (retryResult (att idx)) (idx + 1) pageText
  let parts := st.translatedParts ++ [artifact]
  { store := { st.store with transJoined := some (transJoinPages parts) }
    project := { st.project with translation_completed_pages := parts.length }
    translatedParts := parts }

/-- The state after `j` checkpoints of a translation run that starts at
page index `start`. -/
def transCheckpoint (pages : List String) (att : Nat → AttemptOutcomes)
    (init : TransState) (start : Nat) : Nat → TransState
  | 0 => init
  | j + 1 => transStep pages att (transCheckpoint pages att init start j) (start + j)

/-! ## Translation resume (`src/ui/app.py`, lines 724-733) -/

/-- The lookahead of the resume split pattern: does `cs` start with
`--- Page <digits> ---`? -/
def markerAt (cs : List Char) : Bool :=
  match "--- Page ".data.isPrefixOf cs with
  | false => false
  | true =>
    let r := cs.drop "--- Page ".data.length
    let digits := r.takeWhile Char.isDigit
    decide (digits ≠ []) && " ---".data.isPrefixOf (r.dropWhile Char.isDigit)

/-- Prepend a character to the first part of a split result. -/
def headCons (c : Char) : List (List Char) → List (List Char)
  | [] => [[c]]
  | b :: bs => (c :: b) :: bs

/-- `re.split` on the pattern of line 731: split at each blank line that is
immediately followed (lookahead, not consumed) by a `--- Page <n> ---`
marker line. -/
def splitMarkerGo : List Char → List (List Char)
  | [] => [[]]
  | '\n' :: '\n' :: rest =>
    if markerAt rest then [] :: splitMarkerGo rest
    else headCons '\n' (splitMarkerGo ('\n' :: rest))
  | c :: rest => headCons c (splitMarkerGo rest)

/-- The parts of the saved translation output under the resume split. -/
def splitPageMarker (s : String) : List String :=
  (splitMarkerGo s.data).map (fun l => ⟨l⟩)

/-- The resume recovery of `_run_translation` (lines 724-733): reload the
prior joined output; when it is truthy, the recovered parts are the marker
split and the resume index is their count; otherwise start from 0. -/
def translationResume (saved : Option String) : List String × Nat :=
  match saved with
  | none => ([], 0)
  | some existing =>
    if existing = "" then ([], 0)
    else
      let parts := splitPageMarker existing
      (parts, parts.length)

/-! ## OpenCode output cleanup (`src/translation/opencode.py`) -/

/-- The fixed preamble marker phrases of `_strip_preamble`. -/
def _PREAMBLE_MARKERS : List String :=
  ["I detect ", "My approach:", "I\x27ll ", "I will "]

/-- Python `text.split("\x7b sep \x7d")` for the two-character separator of a
blank line: split on each non-overlapping leftmost occurrence, keeping
empty parts. -/
def splitNN : List Char → List (List Char)
  | [] => [[]]
  | [c] => [[c]]
  | c1 :: c2 :: rest =>
    if c1 = '\n' ∧ c2 = '\n' then [] :: splitNN rest
    else headCons c1 (splitNN (c2 :: rest))

/-- Rejoin blocks with a blank line (`"\n\n".join`). -/
def joinNN : List (List Char) → List Char
  | [] => []
  | [b] => b
  | b :: bs => b ++ '\n' :: '\n' :: joinNN bs

/-- Whether a block's stripped text starts with one of the marker phrases. -/
def isPreambleBlock (b : List Char) : Bool :=
  _PREAMBLE_MARKERS.any (fun m => m.data.isPrefixOf (stripL b))

/-- The loop of `_strip_preamble`: skip blank and preamble blocks, return
the suffix of blocks from the first non-preamble content block on,
`none` when every block is blank or preamble. -/
def firstContent : List (List Char) → Option (List (List Char))
  | [] => none
  | b :: bs =>
    if stripL b = [] then firstContent bs
    else if isPreambleBlock b then firstContent bs
    else some (b :: bs)

/-- `_strip_preamble` (opencode.py lines 238-276): split on blank lines,
drop leading blank or marker-starting blocks, rejoin and strip; when no
content block exists, return the stripped input. -/
def _strip_preamble (text : String) : String :=
  match firstContent (splitNN text.data) with
  | some blocks => ⟨stripL (joinNN blocks)⟩
  | none => ⟨stripL text.data⟩

/-- The line-boundary characters of Python `str.splitlines`. -/
def isLineBreak (c : Char) : Bool :=
  c == '\n' || c == '\r' || c == '\x0b' || c == '\x0c' ||
  c == '\x1c' || c == '\x1d' || c == '\x1e' || c == '\x85' ||
  c == '\u2028' || c == '\u2029'

/-- One line of `str.splitlines`: the text up to the next line boundary and
the remainder after the boundary (CR LF counts as one boundary). -/
def takeLine : List Char → List Char × List Char
  | [] => ([], [])
  | c :: rest =>
    if c = '\r' then
      ([], match rest with
           | '\n' :: r => r
           | r => r)
    else if isLineBreak c then ([], rest)
    else
      let p := takeLine rest
      (c :: p.1, p.2)

/-- Fuelled worker for `str.splitlines` (the fuel is the character count,
always enough since each line consumes at least one character). -/
def splitlinesGo : Nat → List Char → List (List Char)
  | _, [] => []
  | 0, cs => [cs]
  | fuel + 1, cs => (takeLine cs).1 :: splitlinesGo fuel (takeLine cs).2

/-- Python `text.splitlines()`. -/
def pySplitlines (cs : List Char) : List (List Char) :=
  splitlinesGo cs.length cs

/-- The regex of `_LINE_NUMBER_RE` matched at one position: optional
whitespace, one to six digits, a colon, then at least one whitespace
character, all greedy (the character classes are disjoint, so greedy
matching needs no backtracking).  Returns the remainder after the match
and whether the last matched character was a newline (which is where a
multiline caret can match again after a substitution). -/
def matchNumLabel (cs : List Char) : Option (List Char × Bool) :=
  let afterWs := cs.dropWhile pyWs
  let digits := afterWs.takeWhile Char.isDigit
  let afterD := afterWs.dropWhile Char.isDigit
  if 1 ≤ digits.length ∧ digits.length ≤ 6 then
    match afterD with
    | ':' :: r =>
      let ws2 := r.takeWhile pyWs
      if ws2 = [] then none
      else some (r.dropWhile pyWs, ws2.getLastD ' ' == '\n')
    | _ => none
  else none

/-- Fuelled scan of `re.sub(_LINE_NUMBER_RE, "", text)` with the MULTILINE
flag: at each position where a caret matches (start of text or right after
a newline) remove a pattern match, otherwise keep the character. -/
def subGo : Nat → List Char → Bool → List Char
  | _, [], _ => []
  | 0, cs, _ => cs
  | fuel + 1, c :: rest, atStart =>
    if atStart then
      match matchNumLabel (c :: rest) with
      | some (after, nl) => subGo fuel after nl
      | none => c :: subGo fuel rest (c == '\n')
    else c :: subGo fuel rest (c == '\n')

/-- The substitution pass of `_strip_line_number_prefixes`. -/
def subLineNums (cs : List Char) : List Char :=
  subGo cs.length cs true

/-- The non-blank lines of the text (`ln.strip()` truthy). -/
def nonBlankLines (text : String) : List (List Char) :=
  (pySplitlines text.data).filter (fun ln => !(stripL ln).isEmpty)

/-- How many non-blank lines match the line-number prefix pattern. -/
def lineMatchCount (text : String) : Nat :=
  ((nonBlankLines text).filter (fun ln => (matchNumLabel ln).isSome)).length

/-- `_strip_line_number_prefixes` (opencode.py lines 213-235): strip the
prefixes only when at least 70 percent of non-blank lines match.  The
float comparison `matches / max(1, len(non_empty)) < 0.70` is modelled as
the exact rational comparison `10 * matches < 7 * max 1 n`; the two agree
at every ratio a realistic line count can produce. -/
def _strip_line_number_prefixes (text : String) : String :=
  if nonBlankLines text = [] then text
  else if 10 * lineMatchCount text < 7 * max 1 (nonBlankLines text).length then text
  else ⟨subLineNums text.data⟩

/-! ## Concrete fixtures used by witnesses and counterexamples -/

/-- An empty project folder. -/
def emptyStore : Store :=
  { ocrPages := [], transPages := [], ocrJoined := none, transJoined := none }

/-- Initial in-memory state of a fresh extraction run. -/
def cInitO : OcrState :=
  { store := emptyStore, project := mkProject "p" "doc.pdf", pagesText := [] }

/-- Initial in-memory state of a fresh translation run. -/
def cInitT : TransState :=
  { store := emptyStore, project := mkProject "p" "doc.pdf", translatedParts := [] }

/-- OCR outcomes where every page succeeds. -/
def cOut : Nat → Except String String := fun _ => Except.ok "scanned text"

/-- OCR outcomes where page index 1 raises. -/
def cOutFail : Nat → Except String String :=
  fun i => if i = 1 then Except.error "tesseract crashed" else Except.ok "text"

/-- Translation attempts where every page succeeds immediately. -/
def cAttOk : Nat → AttemptOutcomes :=
  fun i _ => some (["t-uno", "t-dos", "t-tres"].getD i "")

/-- Attempt outcomes: fail, fail, then succeed with an empty string. -/
def cAttEmptyOk : AttemptOutcomes :=
  fun a => if a = 2 then some "" else none

/-- Attempt outcomes: fail, fail, then succeed with nonempty text. -/
def cAttThirdOk : AttemptOutcomes :=
  fun a => if a = 2 then some "Bonjour" else none

/-- Ten lines, eight of which carry a line-number prefix. -/
def tenLinesEight : String :=
  "1: um\n2: dois\n3: tres\n4: quatro\n5: cinco\n6: seis\n7: sete\n8: oito\nalpha\nbeta"

/-- The previous text with the eight prefixes stripped. -/
def tenLinesEightStripped : String :=
  "um\ndois\ntres\nquatro\ncinco\nseis\nsete\noito\nalpha\nbeta"

/-- Ten lines, only three of which carry a line-number prefix. -/
def tenLinesThree : String :=
  "1: um\n2: dois\n3: tres\nalpha\nbeta\ngamma\ndelta\nepsilon\nzeta\neta"

/-- The join shape stated by the amended claim C5: no pages give the empty
string, one page gives the bare page text, and two or more pages give the
marker-prefixed blocks (a marker before every page, the first included)
joined by blank lines. -/
def amendedOcrJoin (pages : List String) : String :=
  match pages with
  | [] => ""
  | [p] => p
  | ps =>
    joinSep "\n\n" ((List.range ps.length).map
      (fun k => "--- Page " ++ toString (k + 1) ++ " ---\n\n" ++ ps.getD k ""))

/-! ## Storage lemmas -/

theorem writeAt_length_eq (l : List (Option String)) (t : String) :
    writeAt l l.length t = l ++ [some t] := by
  induction l with
  | nil => rfl
  | cons x xs ih => simp [writeAt, ih]

theorem getArt_append_lt (l l2 : List (Option String)) (i : Nat) (h : i < l.length) :
    getArt (l ++ l2) i = getArt l i := by
  induction l generalizing i with
  | nil => exact absurd h (Nat.not_lt_zero i)
  | cons x xs ih =>
    cases i with
    | zero => rfl
    | succ n =>
      have : n < xs.length := Nat.lt_of_succ_lt_succ h
      simpa [getArt, List.getD] using ih n this

theorem getArt_append_self (l : List (Option String)) (t : String) :
    getArt (l ++ [some t]) l.length = some t := by
  induction l with
  | nil => rfl
  | cons x xs ih => simp [getArt, List.getD, ih]

theorem contig_step (l : List (Option String)) (e : Nat) (t : String)
    (h : Contig l e) : Contig (writeAt l e t) (e + 1) := by
  obtain ⟨hlen, hall⟩ := h
  subst hlen
  rw [writeAt_length_eq]
  constructor
  · simp
  · intro o ho
    rcases List.mem_append.mp ho with h1 | h2
    · exact hall o h1
    · simp only [List.mem_singleton] at h2
      subst h2
      rfl

/-- Core invariant of the extraction loop: starting from a store whose
OCR artifacts are exactly `[0, e)` and an accumulated page list of length
`e`, after `j` further checkpoints the accumulated list has length `e + j`,
the artifacts are exactly `[0, e + j)`, the persisted counter equals
`e + j` (once at least one checkpoint has happened), and each processed
page index holds its checkpointed text. -/
theorem ocrCheckpoint_invariant (out : Nat → Except String String) (init : OcrState)
    (e : Nat) (hC : Contig init.store.ocrPages e) (hp : init.pagesText.length = e) :
    ∀ j : Nat,
      (ocrCheckpoint out init e j).pagesText.length = e + j ∧
      Contig (ocrCheckpoint out init e j).store.ocrPages (e + j) ∧
      (1 ≤ j → (ocrCheckpoint out init e j).project.ocr_completed_pages = e + j) ∧
      (∀ k, k < j →
        getArt (ocrCheckpoint out init e j).store.ocrPages (e + k)
          = some (ocrPageText (out (e + k)) (e + k))) := by
  intro j
  induction j with
  | zero =>
    refine ⟨hp, hC, ?_, ?_⟩
    · intro h; exact absurd h (by omega)
    · intro k hk; exact absurd hk (Nat.not_lt_zero k)
  | succ j ih =>
    obtain ⟨ihLen, ihC, _, ihArt⟩ := ih
    have hlenS : (ocrCheckpoint out init e j).store.ocrPages.length = e + j := ihC.1
    have hw : writeAt (ocrCheckpoint out init e j).store.ocrPages (e + j)
          (ocrPageText (out (e + j)) (e + j))
        = (ocrCheckpoint out init e j).store.ocrPages
            ++ [some (ocrPageText (out (e + j)) (e + j))] := by
      rw [← hlenS]
      exact writeAt_length_eq _ _
    have hstore : (ocrCheckpoint out init e (j + 1)).store.ocrPages
        = (ocrCheckpoint out init e j).store.ocrPages
            ++ [some (ocrPageText (out (e + j)) (e + j))] := hw
    refine ⟨?_, ?_, ?_, ?_⟩
    · show ((ocrCheckpoint out init e j).pagesText
          ++ [ocrPageText (out (e + j)) (e + j)]).length = e + (j + 1)
      rw [List.length_append, ihLen, List.length_singleton]
      omega
    · have h3 := contig_step _ _ (ocrPageText (out (e + j)) (e + j)) ihC
      rw [hw] at h3
      show Contig ((ocrCheckpoint out init e (j + 1)).store.ocrPages) (e + (j + 1))
      rw [hstore]
      exact h3
    · intro _
      show ((ocrCheckpoint out init e j).pagesText
          ++ [ocrPageText (out (e + j)) (e + j)]).length = e + (j + 1)
      rw [List.length_append, ihLen, List.length_singleton]
      omega
    · intro k hk
      show getArt ((ocrCheckpoint out init e (j + 1)).store.ocrPages) (e + k)
          = some (ocrPageText (out (e + k)) (e + k))
      rw [hstore]
      rcases Nat.lt_or_ge k j with hlt | hge
      · rw [getArt_append_lt _ _ _ (by rw [hlenS]; omega)]
        exact ihArt k hlt
      · have hkj : k = j := by omega
        subst hkj
        rw [← hlenS]
        exact getArt_append_self _ _

/-! ## Translation-loop and joining lemmas -/

theorem transCheckpoint_transPages (pages : List String) (att : Nat → AttemptOutcomes)
    (init : TransState) (start : Nat) :
    ∀ j, (transCheckpoint pages att init start j).store.transPages
      = init.store.transPages := by
  intro j
  induction j with
  | zero => rfl
  | succ j ih =>
    show (transStep pages att (transCheckpoint pages att init start j)
        (start + j)).store.transPages = _
    rw [← ih]
    rfl

theorem numberBlocks_eq (ps : List String) :
    ∀ s, numberBlocks s ps
      = (List.range ps.length).map (fun k => pageBlock (s + k) (ps.getD k "")) := by
  induction ps with
  | nil => intro s; rfl
  | cons p tl ih =>
    intro s
    show pageBlock s p :: numberBlocks (s + 1) tl = _
    rw [List.length_cons, List.range_succ_eq_map, List.map_cons, List.map_map]
    have hfun : ((fun k => pageBlock (s + k) ((p :: tl).getD k "")) ∘ Nat.succ)
        = fun k => pageBlock (s + 1 + k) (tl.getD k "") := by
      funext k
      show pageBlock (s + Nat.succ k) ((p :: tl).getD (Nat.succ k) "") = _
      rw [List.getD_cons_succ]
      congr 1
      omega
    rw [hfun, ← ih (s + 1)]
    show pageBlock s p :: numberBlocks (s + 1) tl
        = pageBlock (s + 0) ((p :: tl).getD 0 "") :: numberBlocks (s + 1) tl
    rw [List.getD_cons_zero]
    rw [show s + 0 = s from rfl]

theorem joinPages_amended (pages : List String) :
    _join_pages pages = amendedOcrJoin pages := by
  match pages with
  | [] => rfl
  | [p] => rfl
  | p :: q :: tl =>
    have h1 : _join_pages (p :: q :: tl) = joinSep "\n\n" (numberBlocks 1 (p :: q :: tl)) := by
      unfold _join_pages
      rw [if_neg (by simp), if_neg (by simp)]
    have h2 : amendedOcrJoin (p :: q :: tl)
        = joinSep "\n\n" ((List.range (p :: q :: tl).length).map
            (fun k => "--- Page " ++ toString (k + 1) ++ " ---\n\n" ++ (p :: q :: tl).getD k "")) := rfl
    rw [h1, h2, numberBlocks_eq]
    have hfun : (fun k => pageBlock (1 + k) ((p :: q :: tl).getD k ""))
        = fun k => "--- Page " ++ toString (k + 1) ++ " ---\n\n" ++ (p :: q :: tl).getD k "" := by
      funext k
      show pageBlock (1 + k) ((p :: q :: tl).getD k "") = _
      unfold pageBlock
      rw [Nat.add_comm 1 k]
    rw [hfun]

/-! ## String-cleanup lemmas -/

theorem dropWhile_append_ws :
    ∀ p : List Char, (∀ c ∈ p, pyWs c = true) →
      ∀ r : List Char, (p ++ r).dropWhile pyWs = r.dropWhile pyWs := by
  intro p
  induction p with
  | nil => intro _ r; rfl
  | cons c cs ih =>
    intro h r
    rw [List.cons_append, List.dropWhile_cons, if_pos (h c (List.mem_cons_self c cs))]
    exact ih (fun x hx => h x (List.mem_cons_of_mem c hx)) r

theorem stripL_append_ws (p r : List Char) (h : ∀ c ∈ p, pyWs c = true) :
    stripL (p ++ r) = stripL r := by
  unfold stripL
  rw [dropWhile_append_ws p h r]

theorem all_ws_of_stripL_nil (b : List Char) (h : stripL b = []) :
    ∀ c ∈ b, pyWs c = true := by
  unfold stripL at h
  rw [List.reverse_eq_nil_iff, List.dropWhile_eq_nil_iff] at h
  intro c hc
  rw [← List.takeWhile_append_dropWhile pyWs b] at hc
  rcases List.mem_append.mp hc with h1 | h2
  · exact List.mem_takeWhile_imp h1
  · exact h c (List.mem_reverse.mpr h2)

theorem headCons_ne_nil (c : Char) (l : List (List Char)) : headCons c l ≠ [] := by
  cases l <;> simp [headCons]

theorem splitNN_ne_nil (cs : List Char) : splitNN cs ≠ [] := by
  match cs with
  | [] => simp [splitNN]
  | [c] => simp [splitNN]
  | c1 :: c2 :: rest =>
    simp only [splitNN]
    split
    · simp
    · exact headCons_ne_nil _ _

theorem joinNN_splitNN_bounded :
    ∀ n (cs : List Char), cs.length ≤ n → joinNN (splitNN cs) = cs := by
  intro n
  induction n with
  | zero =>
    intro cs h
    have hnil : cs = [] := List.eq_nil_of_length_eq_zero (Nat.le_zero.mp h)
    subst hnil
    rfl
  | succ n ih =>
    intro cs h
    match cs with
    | [] => rfl
    | [c] => rfl
    | c1 :: c2 :: rest =>
      have hr2 : (c2 :: rest).length ≤ n := by
        simp only [List.length_cons] at h ⊢
        omega
      have hr : rest.length ≤ n := by
        simp only [List.length_cons] at h
        omega
      simp only [splitNN]
      by_cases hnn : c1 = '\n' ∧ c2 = '\n'
      · rw [if_pos hnn]
        obtain ⟨hc1, hc2⟩ := hnn
        subst hc1
        subst hc2
        have hjoin := ih rest hr
        have hne := splitNN_ne_nil rest
        cases hsp : splitNN rest with
        | nil => exact absurd hsp hne
        | cons b bs =>
          rw [hsp] at hjoin
          show joinNN ([] :: b :: bs) = _
          show ([] : List Char) ++ '\n' :: '\n' :: joinNN (b :: bs) = _
          rw [List.nil_append, hjoin]
      · rw [if_neg hnn]
        have hjoin := ih (c2 :: rest) hr2
        have hne := splitNN_ne_nil (c2 :: rest)
        cases hsp : splitNN (c2 :: rest) with
        | nil => exact absurd hsp hne
        | cons b bs =>
          rw [hsp] at hjoin
          show joinNN (headCons c1 (b :: bs)) = _
          show joinNN ((c1 :: b) :: bs) = _
          cases bs with
          | nil =>
            show c1 :: b = c1 :: c2 :: rest
            have hb : b = c2 :: rest := hjoin
            rw [hb]
          | cons b2 bs2 =>
            show (c1 :: b) ++ '\n' :: '\n' :: joinNN (b2 :: bs2) = c1 :: c2 :: rest
            rw [List.cons_append]
            have hb : b ++ '\n' :: '\n' :: joinNN (b2 :: bs2) = c2 :: rest := hjoin
            rw [hb]

theorem firstContent_spec (blocks : List (List Char))
    (h : ∀ b ∈ blocks, isPreambleBlock b = false) :
    (firstContent blocks = none ∧ ∀ b ∈ blocks, stripL b = []) ∨
    (∃ rest, firstContent blocks = some rest ∧
      stripL (joinNN rest) = stripL (joinNN blocks)) := by
  induction blocks with
  | nil =>
    left
    exact ⟨rfl, fun b hb => absurd hb (List.not_mem_nil b)⟩
  | cons b bs ih =>
    have hb := h b (List.mem_cons_self b bs)
    have hbs : ∀ x ∈ bs, isPreambleBlock x = false :=
      fun x hx => h x (List.mem_cons_of_mem b hx)
    by_cases hblank : stripL b = []
    · have hfc : firstContent (b :: bs) = firstContent bs := by
        simp only [firstContent]
        rw [if_pos hblank]
      rcases ih hbs with ⟨hnone, hall⟩ | ⟨rest, hsome, heq⟩
      · left
        refine ⟨hfc.trans hnone, ?_⟩
        intro x hx
        rcases List.mem_cons.mp hx with hx1 | hx2
        · rw [hx1]; exact hblank
        · exact hall x hx2
      · right
        refine ⟨rest, hfc.trans hsome, ?_⟩
        rw [heq]
        cases bs with
        | nil => exact absurd hsome Option.noConfusion
        | cons b2 bs2 =>
          show stripL (joinNN (b2 :: bs2)) = stripL (joinNN (b :: b2 :: bs2))
          have hws : ∀ c ∈ b ++ ['\n', '\n'], pyWs c = true := by
            intro c hc
            rcases List.mem_append.mp hc with h1 | h2
            · exact all_ws_of_stripL_nil b hblank c h1
            · simp only [List.mem_cons, List.not_mem_nil, or_false] at h2
              rcases h2 with h2 | h2 <;> rw [h2] <;> rfl
          have hj : joinNN (b :: b2 :: bs2) = (b ++ ['\n', '\n']) ++ joinNN (b2 :: bs2) := by
            show b ++ '\n' :: '\n' :: joinNN (b2 :: bs2) = _
            simp
          rw [hj, stripL_append_ws _ _ hws]
    · right
      have hfc : firstContent (b :: bs) = some (b :: bs) := by
        simp only [firstContent]
        rw [if_neg hblank, if_neg (by simp [hb])]
      exact ⟨b :: bs, hfc, rfl⟩

theorem strip_preamble_no_marker (text : String)
    (h : ∀ b ∈ splitNN text.data, isPreambleBlock b = false) :
    _strip_preamble text = pyStripStr text := by
  unfold _strip_preamble
  rcases firstContent_spec (splitNN text.data) h with ⟨hnone, _⟩ | ⟨rest, hsome, heq⟩
  · rw [hnone]
    rfl
  · rw [hsome]
    show (⟨stripL (joinNN rest)⟩ : String) = pyStripStr text
    have h2 : stripL (joinNN rest) = stripL text.data := by
      rw [heq, joinNN_splitNN_bounded text.data.length text.data (Nat.le_refl _)]
    rw [pyStripStr, h2]

/-! ## Claim theorems: status machine and persistence round trip -/

/-- C6: `can_start` is true exactly for `pending` and `ocr_done`,
`can_resume` exactly for `ocr_paused` and `translation_paused`, and
`can_pause` exactly for `ocr_in_progress` and `translating`. -/
theorem C6_status_predicates (s : ProjectStatus) :
    (can_start s = true ↔ s = ProjectStatus.pending ∨ s = ProjectStatus.ocr_done) ∧
    (can_resume s = true ↔ s = ProjectStatus.ocr_paused ∨ s = ProjectStatus.translation_paused) ∧
    (can_pause s = true ↔ s = ProjectStatus.ocr_in_progress ∨ s = ProjectStatus.translating) := by
  cases s <;> simp [can_start, can_resume, can_pause]

/-- C10: loading a project back from its saved metadata is the identity on
every serialized field (name, source path, status, both timestamps, all
progress counters, all configuration fields, and the error message). -/
theorem C10_save_load_roundtrip (p : Project) :
    loadMeta (saveMeta p) = some p := by
  obtain ⟨n, sp, st, ca, ua, otp, ocp, ol, ttp, tcp, ttl, tb, tlu, tlm, tom, em⟩ := p
  cases st <;> rfl

/-! ## Claim theorems: checkpoint invariant (C1) -/

/-- C1 (amended): during extraction, at every page checkpoint the
persisted `ocr_completed_pages` counter equals the number of contiguous
OCR page artifacts — artifacts exist for exactly the indices
`[0, completedPages)` and each is loadable.  During translation no
per-page artifact is ever written (the durable record of progress is the
joined output file), so the per-page form of the invariant holds only for
the extraction stage. -/
theorem C1_checkpoint_invariant (out : Nat → Except String String)
    (pages : List String) (att : Nat → AttemptOutcomes)
    (initO : OcrState) (initT : TransState) (e startT j : Nat)
    (hC : Contig initO.store.ocrPages e) (hp : initO.pagesText.length = e)
    (hj : 1 ≤ j) :
    ((ocrCheckpoint out initO e j).project.ocr_completed_pages = e + j ∧
      Contig (ocrCheckpoint out initO e j).store.ocrPages
        ((ocrCheckpoint out initO e j).project.ocr_completed_pages)) ∧
    (transCheckpoint pages att initT startT j).store.transPages
      = initT.store.transPages := by
  obtain ⟨hlen, hcontig, hcomp, hart⟩ := ocrCheckpoint_invariant out initO e hC hp j
  have hc := hcomp hj
  exact ⟨⟨hc, by rw [hc]; exact hcontig⟩,
    transCheckpoint_transPages pages att initT startT j⟩

/-- C1 witness: a fresh single-page extraction run and translation run,
instantiating the invariant at a concrete checkpoint. -/
theorem C1_witness :
    ((ocrCheckpoint cOut cInitO 0 1).project.ocr_completed_pages = 0 + 1 ∧
      Contig (ocrCheckpoint cOut cInitO 0 1).store.ocrPages
        ((ocrCheckpoint cOut cInitO 0 1).project.ocr_completed_pages)) ∧
    (transCheckpoint ["p0"] cAttOk cInitT 0 1).store.transPages
      = cInitT.store.transPages :=
  C1_checkpoint_invariant cOut ["p0"] cAttOk cInitO cInitT 0 0 1
    ⟨rfl, fun o ho => absurd ho (List.not_mem_nil o)⟩ rfl (Nat.le_refl 1)

/-- C1 counterexample: at the first translation checkpoint the persisted
counter is 1, yet the store holds no per-page translation artifact at all,
so the counter does not equal the number of per-page artifacts for the
translation stage. -/
theorem C1_counterexample :
    (transCheckpoint ["p0", "p1"] cAttOk cInitT 0 1).project.translation_completed_pages = 1 ∧
    (transCheckpoint ["p0", "p1"] cAttOk cInitT 0 1).store.transPages = [] :=
  ⟨rfl, rfl⟩

/-! ## Claim theorems: empty translation output (C2) -/

/-- C2: the OpenCode backend rejects empty and whitespace-only output, but
the LM Studio backend raises only on a `None` content field — an
empty-string API response is returned as a successful `TranslationResult`
with empty `translated_text`, contradicting the claim for that backend. -/
theorem C2_empty_output_handling :
    lmstudioTranslate (some "") "auto" "French"
      = Except.ok { translated_text := ""
                    source_language := "auto"
                    target_language := "French"
                    backend_used := "lmstudio" } ∧
    opencodeFinish "" "auto" "French"
      = Except.error
          "opencode CLI returned empty translation — check model availability and prompt." ∧
    opencodeFinish "  \n " "auto" "French"
      = Except.error
          "opencode CLI returned empty translation — check model availability and prompt." :=
  ⟨rfl, rfl, rfl⟩

/-! ## Claim theorems: resume offsets (C3) -/

/-- C3: extraction resume derives its start index correctly from the
per-page artifact count, but translation resume does not.  After two
translated pages the saved joined output contains no page-boundary marker
(the translation join inserts none), so the resume split yields a single
part and the resumed run restarts at index 1 instead of index 2,
re-processing the second page. -/
theorem C3_translation_resume_bug :
    (transCheckpoint ["uno", "dos", "tres"] cAttOk cInitT 0 2).project.translation_completed_pages
      = 2 ∧
    (transCheckpoint ["uno", "dos", "tres"] cAttOk cInitT 0 2).store.transJoined
      = some "t-uno\n\nt-dos" ∧
    translationResume (some "t-uno\n\nt-dos") = (["t-uno\n\nt-dos"], 1) ∧
    ocrResumeStart { ocrPages := [some "a", some "b"]
                     transPages := []
                     ocrJoined := none
                     transJoined := none } = 2 :=
  ⟨rfl, rfl, by decide, rfl⟩

/-! ## Claim theorems: translation retry policy (C4) -/

/-- C4 (amended): at most 3 attempts are made per page; when the first two
attempts fail the waits are exactly 1 second then 2 seconds; a
`[fail, fail, succeed]` sequence with nonempty successful text yields that
text with no sentinel (an empty successful text is instead replaced by the
sentinel, see the counterexample); and `[fail, fail, fail]` yields the
sentinel artifact containing the original page text without raising. -/
theorem C4_retry_policy (att : AttemptOutcomes) (i1 : Nat) (pageText t : String) :
    attemptsUsed att ≤ 3 ∧
    (att 0 = none → att 1 = none → retryWaits att = [1, 2]) ∧
    (att 0 = none → att 1 = none → att 2 = some t → t ≠ "" →
      transPageArtifact (retryResult att) i1 pageText = t) ∧
    (att 0 = none → att 1 = none → att 2 = none →
      transPageArtifact (retryResult att) i1 pageText = transSentinel i1 pageText) := by
  refine ⟨?_, ?_, ?_, ?_⟩
  · unfold attemptsUsed
    split
    · omega
    · split
      · omega
      · omega
  · intro h0 h1
    unfold retryWaits
    rw [h0, h1]
    decide
  · intro h0 h1 h2 ht
    unfold transPageArtifact retryResult
    rw [h0, h1, h2]
    simp [ht]
  · intro h0 h1 h2
    unfold transPageArtifact retryResult
    rw [h0, h1, h2]

/-- C4 witness: concrete attempt outcomes exercising the amended claim. -/
theorem C4_witness :
    attemptsUsed cAttThirdOk ≤ 3 ∧
    retryWaits cAttThirdOk = [1, 2] ∧
    transPageArtifact (retryResult cAttThirdOk) 1 "orig" = "Bonjour" ∧
    transPageArtifact (retryResult (fun _ => none)) 1 "orig" = transSentinel 1 "orig" :=
  ⟨(C4_retry_policy cAttThirdOk 1 "orig" "Bonjour").1,
   (C4_retry_policy cAttThirdOk 1 "orig" "Bonjour").2.1 rfl rfl,
   (C4_retry_policy cAttThirdOk 1 "orig" "Bonjour").2.2.1 rfl rfl rfl (by decide),
   (C4_retry_policy (fun _ => none) 1 "orig" "Bonjour").2.2.2 rfl rfl rfl⟩

/-- C4 counterexample: a `[fail, fail, succeed]` sequence whose successful
text is the empty string does not yield the successful text — the truthy
check `if page_translation:` routes it to the sentinel instead. -/
theorem C4_counterexample :
    cAttEmptyOk 0 = none ∧ cAttEmptyOk 1 = none ∧ cAttEmptyOk 2 = some "" ∧
    transPageArtifact (retryResult cAttEmptyOk) 1 "texto original"
      = transSentinel 1 "texto original" ∧
    transSentinel 1 "texto original" ≠ "" :=
  ⟨rfl, rfl, rfl, rfl, by decide⟩

/-! ## Claim theorems: joined artifacts (C5) -/

/-- C5 (amended): the extraction joined artifact is the bare page text for
a single page, and for two or more pages it is the blocks
`--- Page n ---`, blank line, page text — one block per page, the first
page included — joined by blank lines; the translation joined artifact is
the parts joined by a blank line with no page-boundary markers at all. -/
theorem C5_join_shapes (pages parts : List String) :
    _join_pages pages = amendedOcrJoin pages ∧
    transJoinPages parts = joinSep "\n\n" parts :=
  ⟨joinPages_amended pages, rfl⟩

/-- C5 counterexample: the two-page translation joined artifact contains
no page-boundary marker between its pages, refuting the claim for the
translation stage. -/
theorem C5_counterexample :
    transJoinPages ["alpha", "beta"] = "alpha\n\nbeta" ∧
    hasSub "--- Page".data "alpha\n\nbeta".data = false :=
  ⟨rfl, by decide⟩

/-! ## Claim theorems: per-page extraction failure (C7) -/

/-- C7: an OCR failure on page `i` does not abort the extraction stage: a
sentinel artifact is checkpointed for page `i` and the run continues to
the end, with every page of the document having an artifact and the
counter reaching the total. -/
theorem C7_ocr_failure_continues (out : Nat → Except String String)
    (init : OcrState) (total i : Nat) (msg : String)
    (hs : init.store.ocrPages = []) (hp : init.pagesText = [])
    (hi : i < total) (hf : out i = Except.error msg) :
    (ocrCheckpoint out init 0 total).project.ocr_completed_pages = total ∧
    getArt (ocrCheckpoint out init 0 total).store.ocrPages i
      = some ("[PAGE " ++ toString (i + 1) ++ " OCR FAILED]\n") ∧
    Contig (ocrCheckpoint out init 0 total).store.ocrPages total := by
  have hC : Contig init.store.ocrPages 0 := by
    rw [hs]
    exact ⟨rfl, fun o ho => absurd ho (List.not_mem_nil o)⟩
  have hp0 : init.pagesText.length = 0 := by rw [hp]; rfl
  obtain ⟨hlen, hcontig, hcomp, hart⟩ := ocrCheckpoint_invariant out init 0 hC hp0 total
  refine ⟨?_, ?_, ?_⟩
  · have hc := hcomp (by omega)
    simpa using hc
  · have ha := hart i hi
    simp only [Nat.zero_add] at ha
    rw [ha, hf]
    rfl
  · simpa using hcontig

/-- C7 witness: a 3-page extraction whose second page raises. -/
theorem C7_witness :
    (ocrCheckpoint cOutFail cInitO 0 3).project.ocr_completed_pages = 3 ∧
    getArt (ocrCheckpoint cOutFail cInitO 0 3).store.ocrPages 1
      = some ("[PAGE " ++ toString (1 + 1) ++ " OCR FAILED]\n") ∧
    Contig (ocrCheckpoint cOutFail cInitO 0 3).store.ocrPages 3 :=
  C7_ocr_failure_continues cOutFail cInitO 3 1 "tesseract crashed" rfl rfl
    (by omega) rfl

/-! ## Claim theorems: preamble stripping (C8) -/

/-- C8 (amended): the spec example strips the preamble block; and for any
input none of whose blank-line-separated blocks begins with a marker
phrase, the result is the input with leading and trailing whitespace
stripped — so the input is returned unchanged exactly when it is already
stripped, not for every marker-free input. -/
theorem C8_strip_preamble_behavior :
    _strip_preamble "I\x27ll do X.\n\nBonjour le monde" = "Bonjour le monde" ∧
    ∀ text : String, (∀ b ∈ splitNN text.data, isPreambleBlock b = false) →
      _strip_preamble text = pyStripStr text := by
  constructor
  · decide
  · exact strip_preamble_no_marker

/-- C8 witness: a marker-free input evaluated through the theorem. -/
theorem C8_witness : _strip_preamble "Bonjour" = pyStripStr "Bonjour" :=
  C8_strip_preamble_behavior.2 "Bonjour" (by decide)

/-- C8 counterexample: an input containing no marker phrase at all is not
returned unchanged — its surrounding whitespace is stripped. -/
theorem C8_counterexample :
    _PREAMBLE_MARKERS.all (fun m => !(hasSub m.data " hello ".data)) = true ∧
    _strip_preamble " hello " ≠ " hello " :=
  ⟨by decide, by decide⟩

/-! ## Claim theorems: line-number stripping (C9) -/

/-- C9: the line-number stripper returns the text unchanged whenever fewer
than 70 percent of its non-blank lines match the number prefix pattern;
a 10-line block with 8 matching lines is stripped and a 10-line block with
only 3 matching lines is left unchanged. -/
theorem C9_line_number_threshold :
    (∀ text : String,
      10 * lineMatchCount text < 7 * max 1 (nonBlankLines text).length →
      _strip_line_number_prefixes text = text) ∧
    _strip_line_number_prefixes tenLinesEight = tenLinesEightStripped ∧
    _strip_line_number_prefixes tenLinesThree = tenLinesThree := by
  refine ⟨?_, ?_, ?_⟩
  · intro text h
    unfold _strip_line_number_prefixes
    by_cases hne : nonBlankLines text = []
    · rw [if_pos hne]
    · rw [if_neg hne, if_pos h]
  · rfl
  · rfl

/-- C9 witness: a text with no numbered lines is left unchanged. -/
theorem C9_witness :
    _strip_line_number_prefixes "hello\nworld" = "hello\nworld" :=
  C9_line_number_threshold.1 "hello\nworld" (by decide)

end Lumos
